import Mathlib

/-!
Verification of the site-search engine `sivustohaku.py` (django-sivustohaku).

Shallow embedding conventions:

* A Django model instance (`models.Model`) is a `Tietue`: a primary key plus
  its display data (`str(tietue)` and the value `get_absolute_url()` would
  return, `none` when the accessor is absent).  Model-instance equality is
  structural, matching Django's pk-based equality within one model.
* A model class is a `Malli`: its `__name__` (the sort key of `haku`) and its
  `_meta.verbose_name_plural` (the label of a result row).
* A `QuerySet` is its row list plus the `query.is_empty()` flag (`True`
  exactly for querysets built with `.none()`; `.all()` over an empty table
  reports `False`).
* The `re` module (an external collaborator) is modelled by a small regular
  expression language `Pattern` with anchored matching `reMatch` mirroring
  `re.Pattern.match` and a compiler `reCompile` mirroring `re.compile` on the
  sub-syntax of literals, `.`, `*`, `|` and parentheses; malformed sources
  yield an error, as `re.error` does.
* `relevanssi` (a Python float) and `enintaan` (a Python int) are carried in
  `Int`: the code only compares, sorts and maxes these values and never does
  arithmetic on them, so any order-faithful carrier is exact.
* Functions passed as configuration (`haku_muunnos`, `kysely`, and the filter
  predicate induced by `filter(**{kentta: arvo})`, whose semantics live in the
  storage collaborator) are carried as Lean functions.
* Python `max(...)` raises `ValueError` on an empty sequence; accordingly
  `tietueiden_mukaan` returns `Option`, `none` being the raised-exception
  branch.  Registration failures (`TypeError` for the missing mandatory
  `kentta` argument, `re.error` from compiling `hakuehto`) are an `Except`.
-/

/-- Model instance: primary key plus display data (`str(t)` and the result of
`get_absolute_url`, `none` when the instance has no such accessor). -/
structure Tietue where
  pk : Nat
  nayttoteksti : String
  osoite : Option String
deriving DecidableEq

/-- Model class: `__name__` and `_meta.verbose_name_plural`. -/
structure Malli where
  name : String
  verbose_name_plural : String
deriving DecidableEq

/-- Queryset: the rows it would yield, plus the `query.is_empty()` flag
(`true` exactly for querysets constructed with `.none()`). -/
structure QuerySet where
  query_is_empty : Bool
  rivit : List Tietue
deriving DecidableEq

/-- Pattern AST of the modelled `re` sub-language: empty language, empty
string, a literal character, `.`, Kleene star, concatenation, alternation. -/
inductive Pattern where
  | void
  | eps
  | char (c : Char)
  | any
  | star (p : Pattern)
  | cat (p q : Pattern)
  | alt (p q : Pattern)
deriving DecidableEq

/-- Nullability: does the pattern accept the empty string? -/
def Pattern.nullable : Pattern → Bool
  | .void => false
  | .eps => true
  | .char _ => false
  | .any => false
  | .star _ => true
  | .cat p q => p.nullable && q.nullable
  | .alt p q => p.nullable || q.nullable

/-- Brzozowski derivative of a pattern by one character. -/
def Pattern.deriv : Pattern → Char → Pattern
  | .void, _ => .void
  | .eps, _ => .void
  | .char c, d => if c = d then .eps else .void
  | .any, _ => .eps
  | .star p, d => .cat (p.deriv d) (.star p)
  | .cat p q, d =>
      if p.nullable then .alt (.cat (p.deriv d) q) (q.deriv d)
      else .cat (p.deriv d) q
  | .alt p q, d => .alt (p.deriv d) (q.deriv d)

/-- Anchored match on a character list: does the pattern accept some prefix
of the input?  This is the semantics of `re.Pattern.match` (an empty-width
match at position 0 also counts, as `match` then still returns an object). -/
def Pattern.matchL : Pattern → List Char → Bool
  | p, [] => p.nullable
  | p, c :: cs => p.nullable || (p.deriv c).matchL cs

/-- Unanchored search on a character list: does the pattern accept some
substring?  This is the semantics of `re.Pattern.search`, given only to state
that the engine uses anchored matching, not this. -/
def Pattern.searchL : Pattern → List Char → Bool
  | p, [] => p.nullable
  | p, c :: cs => p.matchL (c :: cs) || p.searchL cs

/-- Anchored match on a string, the collaborator behaviour behind
`hakuehto.match(haku) is not None`. -/
def reMatch (p : Pattern) (s : String) : Bool :=
  p.matchL s.data

/-- Unanchored search on a string, mirroring `re.Pattern.search`. -/
def reSearch (p : Pattern) (s : String) : Bool :=
  p.searchL s.data

/-- Recursive-descent parsing of the modelled `re` sub-syntax.  The first
argument is fuel (strictly decreasing on every call, so the definition is
structural); the second selects the grammar level: 0 = alternation,
1 = concatenation, 2 = starred atom, 3 = atom.  Errors mirror the `re.error`
conditions of CPython on this sub-syntax: a dangling `*`, `(` or `)`, and a
truncated input. -/
def reParse : Nat → Nat → List Char → Except String (Pattern × List Char)
  | 0, _, _ => .error "sisainen: polttoaine loppui"
  | f + 1, 0, s =>
    match reParse f 1 s with
    | .error e => .error e
    | .ok (p, rest) =>
      match rest with
      | '|' :: rest' =>
        match reParse f 0 rest' with
        | .ok (q, rest'') => .ok (.alt p q, rest'')
        | .error e => .error e
      | _ => .ok (p, rest)
  | f + 1, 1, s =>
    match s with
    | [] => .ok (.eps, [])
    | c :: _ =>
      if c = ')' ∨ c = '|' then .ok (.eps, s)
      else
        match reParse f 2 s with
        | .error e => .error e
        | .ok (p, rest) =>
          match reParse f 1 rest with
          | .ok (q, rest') => .ok (.cat p q, rest')
          | .error e => .error e
  | f + 1, 2, s =>
    match reParse f 3 s with
    | .error e => .error e
    | .ok (p, rest) =>
      match rest with
      | '*' :: rest' => .ok (.star p, rest')
      | _ => .ok (p, rest)
  | f + 1, 3, s =>
    match s with
    | [] => .error "missing pattern"
    | c :: rest =>
      if c = '(' then
        match reParse f 0 rest with
        | .ok (p, rest') =>
          match rest' with
          | ')' :: rest'' => .ok (p, rest'')
          | _ => .error "missing ), unterminated subpattern"
        | .error e => .error e
      else if c = '*' then .error "nothing to repeat"
      else if c = ')' ∨ c = '|' then .error "unexpected token"
      else if c = '.' then .ok (.any, rest)
      else .ok (.char c, rest)
  | _ + 1, _ + 4, _ => .error "sisainen: tuntematon taso"

/-- Compiler for precondition sources, the collaborator behaviour behind
`re.compile`; an `error` models a raised `re.error`. -/
def reCompile (s : String) : Except String Pattern :=
  match reParse (s.length * 4 + 16) 0 s.data with
  | .error e => .error e
  | .ok (p, []) => .ok p
  | .ok (_, _ :: _) => .error "unbalanced parenthesis"

/-- Registered index (the `Hakemisto` dataclass after `__post_init__`): a
string `hakuehto` has already been compiled to a `Pattern`. The filter
predicate holds the storage collaborator's meaning of
`filter(**{kentta: arvo})` for this index's `kentta`: given a row and the
(transformed) search value, does the row match? -/
structure Hakemisto where
  malli : Malli
  kentta : Tietue → String → Bool
  hakuehto : Option Pattern
  haku_muunnos : String → String
  enintaan : Int
  relevanssi : Int
  kysely : List Tietue → List Tietue

/-- Display form of one matched record (`Hakemisto.Hakutulos.HaettuTietue`). -/
structure Hakemisto.Hakutulos.HaettuTietue where
  teksti : String
  url : Option String
deriving DecidableEq

/-- Conversion of one record, `HaettuTietue.tietueen_mukaan`: `str(tietue)`
plus `get_absolute_url()` when the accessor exists, else `None`. -/
def Hakemisto.Hakutulos.HaettuTietue.tietueen_mukaan (tietue : Tietue) :
    Hakemisto.Hakutulos.HaettuTietue :=
  { teksti := tietue.nayttoteksti, url := tietue.osoite }

/-- Aggregated result for one model (`Hakemisto.Hakutulos`). -/
structure Hakemisto.Hakutulos where
  relevanssi : Int
  tietueet : List Hakemisto.Hakutulos.HaettuTietue
  tyyppi : String
deriving DecidableEq

/-- Python list slicing `l[:n]`: for `0 ≤ n` the first `n` elements, for
`n < 0` everything but the last `-n` elements. -/
def pyTakeTo (n : Int) (l : List α) : List α :=
  if 0 ≤ n then l.take n.toNat else l.take ((l.length : Int) + n).toNat

/-- Queryset slicing `qs[:n]`.  The storage collaborator returns the first
`n` rows for `0 ≤ n` and raises `ValueError` (negative indexing is not
supported) for `n < 0`: the model is exact on the non-negative domain, and
the `else` branch stands in for the raising one only to keep the pipeline
total.  No theorem below asserts anything about the behaviour of an index
with a negative cap: a pair enters the pipeline only through a non-empty
slice, which forces a positive cap (`tee_haku_enintaan`), and every
concrete scenario uses non-negative caps. -/
def querySlice (n : Int) (l : List α) : List α :=
  if 0 ≤ n then l.take n.toNat else []

/-- Python `max(f x for x in xs)` over the non-empty sequence `x :: l`. -/
def suurin (f : α → Int) (x : α) (l : List α) : Int :=
  l.foldl (fun m y => max m (f y)) (f x)

/-- Assembly of one `Hakutulos` (`Hakutulos.tietueiden_mukaan`).  The source
slices the pair list to `max(enintaan over the pairs)` entries, collects the
records of that slice into a Python set (dedup, order unspecified; modelled
by `List.dedup`, one fixed duplicate-free enumeration — every property proved
about it below is invariant under reordering), converts each survivor, and
takes the relevance max over the *whole* pair list.  Both `max(...)` calls
raise `ValueError` on an empty argument; `none` is that raised branch. -/
def Hakemisto.Hakutulos.tietueiden_mukaan (malli : Malli) :
    List (Hakemisto × Tietue) → Option Hakemisto.Hakutulos
  | [] => none
  | p :: ps =>
    some
      { tyyppi := malli.verbose_name_plural
        tietueet :=
          (((pyTakeTo (suurin (fun q => q.1.enintaan) p ps) (p :: ps)).map
              Prod.snd).dedup).map Hakemisto.Hakutulos.HaettuTietue.tietueen_mukaan
        relevanssi := suurin (fun q => q.1.relevanssi) p ps }

/-- Registration exceptions: the `TypeError` Python raises when the mandatory
keyword-only dataclass field `kentta` is missing, and the `re.error` that
`re.compile` raises in `__post_init__` on a malformed `hakuehto` source. -/
inductive RegException where
  | typeErrorPuuttuvaKentta
  | reErrorHakuehto (viesti : String)
deriving DecidableEq

/-- Normalisation of the `hakuehto` argument in `__post_init__`: a string is
compiled (possibly raising), an already-compiled pattern or `None` passes
through. -/
def kaannaHakuehto : Option (String ⊕ Pattern) → Except String (Option Pattern)
  | none => .ok none
  | some (.inr p) => .ok (some p)
  | some (.inl src) =>
    match reCompile src with
    | .ok p => .ok (some p)
    | .error e => .error e

/-- Construction plus `__post_init__` of one `Hakemisto` against the current
registry `hakemistot` (the class variable): binding the dataclass arguments
raises `TypeError` when `kentta` is absent, then the `hakuehto` source is
compiled (possibly raising `re.error`), and only then is the new descriptor
appended.  No other argument is validated. -/
def rekisteroi (hakemistot : List Hakemisto) (malli : Malli)
    (kentta : Option (Tietue → String → Bool))
    (hakuehto : Option (String ⊕ Pattern)) (haku_muunnos : String → String)
    (enintaan : Int) (relevanssi : Int) (kysely : List Tietue → List Tietue) :
    Except RegException (List Hakemisto) :=
  match kentta with
  | none => .error .typeErrorPuuttuvaKentta
  | some k =>
    match kaannaHakuehto hakuehto with
    | .error e => .error (.reErrorHakuehto e)
    | .ok p =>
      .ok (hakemistot ++ [⟨malli, k, p, haku_muunnos, enintaan, relevanssi, kysely⟩])

/-- Return value of `Hakemisto.__new__`: either the model handed straight
back together with the registry grown by one entry, or the deferred registrar
`aseta`, which is applied to the registry current at call time and a model. -/
inductive NewResult where
  | malliJaRekisteri (malli : Malli) (hakemistot : List Hakemisto)
  | aseta (f : List Hakemisto → Malli →
      Except RegException (Malli × List Hakemisto))

/-- Dual-mode entry point `Hakemisto.__new__`: with a model it constructs and
registers a descriptor and returns the model unchanged; without one it
returns the deferred registrar `aseta`, which registers on application and
returns its model unchanged. -/
def Hakemisto.new (hakemistot : List Hakemisto) (malli : Option Malli)
    (kentta : Option (Tietue → String → Bool))
    (hakuehto : Option (String ⊕ Pattern)) (haku_muunnos : String → String)
    (enintaan : Int) (relevanssi : Int) (kysely : List Tietue → List Tietue) :
    Except RegException NewResult :=
  match malli with
  | some m =>
    match rekisteroi hakemistot m kentta hakuehto haku_muunnos enintaan
        relevanssi kysely with
    | .error e => .error e
    | .ok reg => .ok (.malliJaRekisteri m reg)
  | none =>
    .ok (.aseta fun reg m =>
      match rekisteroi reg m kentta hakuehto haku_muunnos enintaan
          relevanssi kysely with
      | .error e => .error e
      | .ok reg' => .ok (m, reg'))

/-- Fetch for one index (`Hakemisto.tee_haku`): apply the query transform to
the supplied scope, filter by the index's field against the transformed term,
and slice to `enintaan`.  The orchestrator always supplies the authorized
scope, so the `tietueet is None` default (the model's full table) never
arises there. -/
def Hakemisto.tee_haku (h : Hakemisto) (haku : String)
    (tietueet : List Tietue) : List Tietue :=
  querySlice h.enintaan
    ((h.kysely tietueet).filter fun t => h.kentta t (h.haku_muunnos haku))

/-- Default authorization hook (`Hakemisto.hakuoikeus_tietueisiin`):
superusers get `malli.objects.all()` over the model's table, everyone else
`malli.objects.none()` (a provably empty queryset). -/
def Hakemisto.hakuoikeus_tietueisiin (is_superuser : Bool)
    (kaikki : List Tietue) : QuerySet :=
  if is_superuser then ⟨false, kaikki⟩ else ⟨true, []⟩

/-- Intra-model index order of `haku`: `sorted(..., key=attrgetter
('relevanssi'), reverse=True)`, relevance descending. -/
def relevanssiJarjestys (a b : Hakemisto) : Prop :=
  b.relevanssi ≤ a.relevanssi

instance : DecidableRel relevanssiJarjestys :=
  fun a b => Int.decLe b.relevanssi a.relevanssi

instance : IsTotal Hakemisto relevanssiJarjestys :=
  ⟨fun a b => by unfold relevanssiJarjestys; exact le_total b.relevanssi a.relevanssi⟩

instance : IsTrans Hakemisto relevanssiJarjestys :=
  ⟨fun _ _ _ h1 h2 => by unfold relevanssiJarjestys at *; exact le_trans h2 h1⟩

/-- Lexicographic code-point comparison of character lists: Python's string
order (`a <= b`), written structurally. -/
def merkkijonoLe : List Char → List Char → Bool
  | [], _ => true
  | _ :: _, [] => false
  | c :: cs, d :: ds => if c = d then merkkijonoLe cs ds else decide (c < d)

/-- Model order of `haku`: `sorted(..., key=attrgetter('malli.__name__'))`,
class name ascending. -/
def nimiJarjestys (a b : Hakemisto) : Prop :=
  merkkijonoLe a.malli.name.data b.malli.name.data = true

instance : DecidableRel nimiJarjestys :=
  fun a b =>
    inferInstanceAs (Decidable (merkkijonoLe a.malli.name.data b.malli.name.data = true))

instance : IsTotal Hakemisto nimiJarjestys := by
  constructor
  intro a b
  unfold nimiJarjestys
  generalize a.malli.name.data = xs
  generalize b.malli.name.data = ys
  induction xs generalizing ys with
  | nil => exact Or.inl rfl
  | cons c cs ih =>
    cases ys with
    | nil => exact Or.inr rfl
    | cons d ds =>
      by_cases hcd : c = d
      · subst hcd
        simpa [merkkijonoLe] using ih ds
      · rcases lt_trichotomy c d with hlt | heq | hgt
        · exact Or.inl (by simp [merkkijonoLe, hcd, hlt])
        · exact absurd heq hcd
        · exact Or.inr (by simp [merkkijonoLe, Ne.symm hcd, hgt])

instance : IsTrans Hakemisto nimiJarjestys := by
  constructor
  have key : ∀ xs ys zs : List Char, merkkijonoLe xs ys = true →
      merkkijonoLe ys zs = true → merkkijonoLe xs zs = true := by
    intro xs
    induction xs with
    | nil => intro ys zs _ _; rfl
    | cons x xs ih =>
      intro ys zs h1 h2
      cases ys with
      | nil => simp [merkkijonoLe] at h1
      | cons y ys' =>
        cases zs with
        | nil => simp [merkkijonoLe] at h2
        | cons z zs' =>
          by_cases hxy : x = y
          · subst hxy
            simp only [merkkijonoLe, if_pos rfl] at h1
            by_cases hyz : x = z
            · subst hyz
              simp only [merkkijonoLe, if_pos rfl] at h2 ⊢
              exact ih ys' zs' h1 h2
            · simpa [merkkijonoLe, hyz] using h2
          · simp only [merkkijonoLe, if_neg hxy, decide_eq_true_eq] at h1
            by_cases hyz : y = z
            · subst hyz
              simp [merkkijonoLe, hxy, h1]
            · simp only [merkkijonoLe, if_neg hyz, decide_eq_true_eq] at h2
              have hxz : x < z := lt_trans h1 h2
              simp [merkkijonoLe, ne_of_lt hxz, hxz]
  exact fun a b c h1 h2 => key _ _ _ h1 h2

/-- Pairs contributed by one index inside the `haku` comprehension: skip when
the term is falsy (empty) or a set precondition does not anchored-match the
term or the fetch comes back empty; otherwise pair each fetched record with
the index.  Python's `sorted` is modelled by Mathlib's stable
`List.insertionSort` at the call site. -/
def hakemistonParit (haku : String) (rivit : List Tietue) (h : Hakemisto) :
    List (Hakemisto × Tietue) :=
  if haku ≠ "" ∧ (∀ p ∈ h.hakuehto, reMatch p haku = true) then
    if h.tee_haku haku rivit = [] then []
    else (h.tee_haku haku rivit).map fun t => (h, t)
  else []

/-- Flattened `(hakemisto, tietue)` pair list of one model group, indices
visited in relevance-descending order. -/
def ryhmanParit (haku : String) (rivit : List Tietue)
    (ryhma : List Hakemisto) : List (Hakemisto × Tietue) :=
  (ryhma.insertionSort relevanssiJarjestys).flatMap (hakemistonParit haku rivit)

/-- Consecutive grouping by model, `itertools.groupby(..., key=attrgetter
('malli'))`: maximal runs of adjacent descriptors sharing their model. -/
def ryhmittele : List Hakemisto → List (List Hakemisto)
  | [] => []
  | h :: t =>
    match ryhmittele t with
    | [] => [[h]]
    | [] :: gs => [h] :: [] :: gs
    | (h2 :: g) :: gs =>
      if h.malli = h2.malli then (h :: h2 :: g) :: gs
      else [h] :: (h2 :: g) :: gs

/-- Output of one model group: nothing when the authorized queryset is
provably empty or no pair survives, else one result row assembled from the
pair list, tagged here with its model so that the emission order can be
stated.  The `none` payload would be a raised `ValueError`. -/
def ryhmanTulos (oikeus : Malli → QuerySet) (haku : String)
    (ryhma : List Hakemisto) : List (Malli × Option Hakemisto.Hakutulos) :=
  match ryhma with
  | [] => []
  | h :: _ =>
    let qs := oikeus h.malli
    if qs.query_is_empty then []
    else
      match ryhmanParit haku qs.rivit ryhma with
      | [] => []
      | p :: ps =>
        [(h.malli, Hakemisto.Hakutulos.tietueiden_mukaan h.malli (p :: ps))]

/-- Search orchestration `Hakemisto.haku` with each emission tagged by its
model: sort the registry by model name, group by model, and emit per group.
The authorization hook (`request` folded in) is the function `oikeus`. -/
def hakuTulokset (hakemistot : List Hakemisto) (oikeus : Malli → QuerySet)
    (haku : String) : List (Malli × Option Hakemisto.Hakutulos) :=
  (ryhmittele (hakemistot.insertionSort nimiJarjestys)).flatMap
    (ryhmanTulos oikeus haku)

/-- Search orchestration `Hakemisto.haku`, the emitted rows only; a `none`
entry would be a `ValueError` escaping from `tietueiden_mukaan`. -/
def haku (hakemistot : List Hakemisto) (oikeus : Malli → QuerySet)
    (hakusana : String) : List (Option Hakemisto.Hakutulos) :=
  (hakuTulokset hakemistot oikeus hakusana).map Prod.snd

/-- Field predicate of the concrete scenarios: a lookup every row satisfies
(for example a contains-lookup on a field value present in every row). -/
def kenttaKaikki : Tietue → String → Bool := fun _ _ => true

/-- Concrete model `Sivu` with plural label `sivut`. -/
def esimSivu : Malli := ⟨"Sivu", "sivut"⟩

/-- Concrete model `Artikkeli` with plural label `artikkelit`. -/
def esimArtikkeli : Malli := ⟨"Artikkeli", "artikkelit"⟩

/-- Two distinct rows (different primary keys) whose display data coincide:
both print as `a` and neither has `get_absolute_url`. -/
def tietueA : Tietue := ⟨1, "a", none⟩

/-- Second of the two display-identical rows. -/
def tietueB : Tietue := ⟨2, "a", none⟩

/-- Single index over `Sivu`, no precondition, defaults `enintaan = 3`,
`relevanssi = 0`. -/
def c2Hakemisto : Hakemisto := ⟨esimSivu, kenttaKaikki, none, id, 3, 0, id⟩

/-- Authorization giving every caller the two display-identical rows. -/
def c2Oikeus : Malli → QuerySet := fun _ => ⟨false, [tietueA, tietueB]⟩

/-- Row of the precondition scenario. -/
def sivuTietue : Tietue := ⟨7, "s1", some "/1"⟩

/-- Index over `Sivu` whose precondition `b` does not anchored-match the term
`ab` (though it occurs as a substring). -/
def c6EhtoHakemisto : Hakemisto :=
  ⟨esimSivu, kenttaKaikki, some (.char 'b'), id, 3, 5, id⟩

/-- Sibling index over `Sivu` with no precondition. -/
def c6SisarHakemisto : Hakemisto := ⟨esimSivu, kenttaKaikki, none, id, 3, 1, id⟩

/-- Authorization of the precondition scenario. -/
def c6Oikeus : Malli → QuerySet := fun _ => ⟨false, [sivuTietue]⟩

/-- Result row of the precondition scenario: only the sibling contributes,
so the relevance is the sibling's weight. -/
def c6Odotus : Hakemisto.Hakutulos := ⟨1, [⟨"s1", some "/1"⟩], "sivut"⟩

/-- Rows of the capping scenario. -/
def riviR1 : Tietue := ⟨11, "r1", none⟩

/-- Second row of the capping scenario. -/
def riviR2 : Tietue := ⟨12, "r2", none⟩

/-- Third row of the capping scenario. -/
def riviR3 : Tietue := ⟨13, "r3", none⟩

/-- High-relevance index of the capping scenario, `enintaan = 2`. -/
def cXHakemisto : Hakemisto := ⟨esimArtikkeli, kenttaKaikki, none, id, 2, 9, id⟩

/-- Low-relevance index of the capping scenario, `enintaan = 1`; it refinds
row `riviR1` that the high-relevance index already returned. -/
def cYHakemisto : Hakemisto := ⟨esimArtikkeli, kenttaKaikki, none, id, 1, 4, id⟩

/-- Authorization of the capping scenario. -/
def c15Oikeus : Malli → QuerySet := fun _ => ⟨false, [riviR1, riviR2, riviR3]⟩

/-- Result row of the capping scenario: the flattened pairs are
`[(X, r1), (X, r2), (Y, r1)]`, the cap is `max 2 1 = 2`, so the capped
window keeps `r1` and `r2` and the relevance is 9. -/
def c15Odotus : Hakemisto.Hakutulos :=
  ⟨9, [⟨"r1", none⟩, ⟨"r2", none⟩], "artikkelit"⟩

/-- Index registered with `enintaan = 0` — the registration code accepts it
(no cap validation exists) and the index then never contributes a record. -/
def nollaHakemisto : Hakemisto := ⟨esimSivu, kenttaKaikki, none, id, 0, 0, id⟩

/-! ### Helper lemmas -/

/-- Seed bound of a running maximum. -/
theorem foldl_max_le_init (f : α → Int) (l : List α) (init : Int) :
    init ≤ l.foldl (fun m y => max m (f y)) init := by
  induction l generalizing init with
  | nil => exact le_refl _
  | cons a t ih => exact le_trans (le_max_left _ _) (ih (max init (f a)))

/-- Element bound of a running maximum. -/
theorem le_foldl_max_mem (f : α → Int) {l : List α} {y : α} (hy : y ∈ l)
    (init : Int) : f y ≤ l.foldl (fun m y => max m (f y)) init := by
  induction l generalizing init with
  | nil => cases hy
  | cons a t ih =>
    cases hy with
    | head => exact le_trans (le_max_right _ _) (foldl_max_le_init f t _)
    | tail _ hmem => exact ih hmem _

/-- A running maximum respects any common upper bound. -/
theorem foldl_max_le (f : α → Int) :
    ∀ (l : List α) (init M : Int), init ≤ M → (∀ y ∈ l, f y ≤ M) →
      l.foldl (fun m y => max m (f y)) init ≤ M := by
  intro l
  induction l with
  | nil => exact fun init M h0 _ => h0
  | cons a t ih =>
    intro init M h0 h
    exact ih _ _ (max_le h0 (h a (List.mem_cons_self a t)))
      (fun y hy => h y (List.mem_cons_of_mem a hy))

/-- The seed is below `suurin`. -/
theorem le_suurin_self (f : α → Int) (x : α) (l : List α) :
    f x ≤ suurin f x l :=
  foldl_max_le_init f l (f x)

/-- Every listed element is below `suurin`. -/
theorem le_suurin_mem (f : α → Int) {l : List α} {y : α} (hy : y ∈ l)
    (x : α) : f y ≤ suurin f x l :=
  le_foldl_max_mem f hy (f x)

/-- `suurin` respects any common upper bound. -/
theorem suurin_le (f : α → Int) {x : α} {l : List α} {M : Int}
    (h0 : f x ≤ M) (h : ∀ y ∈ l, f y ≤ M) : suurin f x l ≤ M :=
  foldl_max_le f l (f x) M h0 h

/-- When the seed dominates, `suurin` is the seed. -/
theorem suurin_eq_self (f : α → Int) {x : α} {l : List α}
    (h : ∀ y ∈ l, f y ≤ f x) : suurin f x l = f x :=
  le_antisymm (suurin_le f (le_refl _) h) (le_suurin_self f x l)

/-- An everywhere-true relation is pairwise on any list. -/
theorem pairwise_of_const {R : α → α → Prop} (hR : ∀ a b, R a b) :
    ∀ l : List α, l.Pairwise R := by
  intro l
  induction l with
  | nil => exact List.Pairwise.nil
  | cons a t ih => exact List.Pairwise.cons (fun b _ => hR a b) ih

/-- Unpacking one index's contribution: the pair carries that index, its
record comes from the index's fetch, the term was truthy, and a set
precondition anchored-matched the term. -/
theorem mem_hakemistonParit {term : String} {rivit : List Tietue}
    {h : Hakemisto} {x : Hakemisto × Tietue}
    (hx : x ∈ hakemistonParit term rivit h) :
    x.1 = h ∧ x.2 ∈ h.tee_haku term rivit ∧ term ≠ "" ∧
      (∀ p ∈ h.hakuehto, reMatch p term = true) := by
  unfold hakemistonParit at hx
  split at hx
  case isTrue hcond =>
    split at hx
    case isTrue => exact absurd hx (List.not_mem_nil x)
    case isFalse =>
      obtain ⟨t, ht, rfl⟩ := List.mem_map.mp hx
      exact ⟨rfl, ht, hcond.1, hcond.2⟩
  case isFalse => exact absurd hx (List.not_mem_nil x)

/-- A fetch that yields anything has a cap of at least one. -/
theorem tee_haku_enintaan {h : Hakemisto} {term : String} {rivit : List Tietue}
    {t : Tietue} (ht : t ∈ h.tee_haku term rivit) : 1 ≤ h.enintaan := by
  unfold Hakemisto.tee_haku querySlice at ht
  by_contra hle
  rcases le_or_lt 0 h.enintaan with h0 | h0
  · have hz : h.enintaan.toNat = 0 := by omega
    rw [if_pos h0, hz, List.take_zero] at ht
    exact List.not_mem_nil t ht
  · rw [if_neg (by omega)] at ht
    exact List.not_mem_nil t ht

/-- Unpacking one group pair: its index belongs to the group, its record to
the index's fetch, the term was truthy, and the precondition matched. -/
theorem mem_ryhmanParit {term : String} {rivit : List Tietue}
    {g : List Hakemisto} {x : Hakemisto × Tietue}
    (hx : x ∈ ryhmanParit term rivit g) :
    x.1 ∈ g ∧ x.2 ∈ x.1.tee_haku term rivit ∧ term ≠ "" ∧
      (∀ p ∈ x.1.hakuehto, reMatch p term = true) := by
  unfold ryhmanParit at hx
  obtain ⟨h, hh, hxh⟩ := List.mem_flatMap.mp hx
  obtain ⟨h1, h2, h3, h4⟩ := mem_hakemistonParit hxh
  subst h1
  exact ⟨((List.perm_insertionSort relevanssiJarjestys g).mem_iff).mp hh, h2, h3, h4⟩

/-- The flattened pair list of a group is ordered by non-increasing index
relevance: the comprehension walks indices in relevance-descending order and
each index's block is constant in its index. -/
theorem ryhmanParit_pairwise (term : String) (rivit : List Tietue)
    (g : List Hakemisto) :
    (ryhmanParit term rivit g).Pairwise
      (fun a b => b.1.relevanssi ≤ a.1.relevanssi) := by
  unfold ryhmanParit
  rw [show (g.insertionSort relevanssiJarjestys).flatMap (hakemistonParit term rivit)
      = ((g.insertionSort relevanssiJarjestys).map (hakemistonParit term rivit)).flatten
    from rfl]
  apply List.pairwise_flatten.mpr
  constructor
  · intro l hl
    obtain ⟨h, -, rfl⟩ := List.mem_map.mp hl
    unfold hakemistonParit
    split
    · split
      · exact List.Pairwise.nil
      · rw [List.pairwise_map]
        exact pairwise_of_const (fun a b => le_refl _) _
    · exact List.Pairwise.nil
  · rw [List.pairwise_map]
    have hs : (g.insertionSort relevanssiJarjestys).Pairwise relevanssiJarjestys :=
      List.sorted_insertionSort relevanssiJarjestys g
    refine hs.imp ?_
    intro a b hab x hx y hy
    obtain ⟨hxa, -, -, -⟩ := mem_hakemistonParit hx
    obtain ⟨hyb, -, -, -⟩ := mem_hakemistonParit hy
    rw [hxa, hyb]
    exact hab

/-- Grouping loses nothing: flattening the consecutive model groups restores
the sorted registry. -/
theorem ryhmittele_flatten (l : List Hakemisto) : (ryhmittele l).flatten = l := by
  induction l with
  | nil => rfl
  | cons h t ih =>
    rw [ryhmittele]
    cases hrt : ryhmittele t with
    | nil =>
      rw [hrt, List.flatten_nil] at ih
      simp [← ih]
    | cons g gs =>
      rw [hrt] at ih
      cases g with
      | nil =>
        simp only [List.flatten_cons, List.nil_append] at ih
        simpa [List.flatten_cons] using ih
      | cons h2 g' =>
        by_cases hm : h.malli = h2.malli
        · simp only [if_pos hm, List.flatten_cons] at ih ⊢
          simp [← List.append_assoc, ih]
        · simp only [if_neg hm, List.flatten_cons] at ih ⊢
          simp [ih]

/-- Members of a model group belong to the grouped registry. -/
theorem mem_of_mem_ryhmittele {l : List Hakemisto} {g : List Hakemisto}
    {h : Hakemisto} (hg : g ∈ ryhmittele l) (hh : h ∈ g) : h ∈ l := by
  rw [← ryhmittele_flatten l]
  exact List.mem_flatten.mpr ⟨g, hg, hh⟩

/-- One group emits at most one row. -/
theorem ryhmanTulos_nil_or_singleton (oikeus : Malli → QuerySet) (term : String)
    (g : List Hakemisto) :
    ryhmanTulos oikeus term g = [] ∨
      ∃ x, ryhmanTulos oikeus term g = [x] := by
  unfold ryhmanTulos
  cases g with
  | nil => exact Or.inl rfl
  | cons h hs =>
    dsimp only
    split
    · exact Or.inl rfl
    · split
      · exact Or.inl rfl
      · exact Or.inr ⟨_, rfl⟩

/-- Unpacking an emitted row of one group: the group is non-empty, its
authorized queryset is not provably empty, its flattened pair list is
non-empty, and the row is the assembly of that pair list, tagged with the
group head's model. -/
theorem mem_ryhmanTulos {oikeus : Malli → QuerySet} {term : String}
    {g : List Hakemisto} {x : Malli × Option Hakemisto.Hakutulos}
    (hx : x ∈ ryhmanTulos oikeus term g) :
    ∃ h hs p ps, g = h :: hs ∧
      (oikeus h.malli).query_is_empty = false ∧
      ryhmanParit term (oikeus h.malli).rivit g = p :: ps ∧
      x = (h.malli, Hakemisto.Hakutulos.tietueiden_mukaan h.malli (p :: ps)) := by
  unfold ryhmanTulos at hx
  cases g with
  | nil => exact absurd hx (List.not_mem_nil x)
  | cons h hs =>
    dsimp only at hx
    split at hx
    case isTrue => exact absurd hx (List.not_mem_nil x)
    case isFalse hq =>
      split at hx
      next => exact absurd hx (List.not_mem_nil x)
      next p ps heq =>
        rw [List.mem_singleton] at hx
        exact ⟨h, hs, p, ps, rfl, by simpa using hq, heq, hx⟩

/-- Every emitted row comes from some model group. -/
theorem mem_hakuTulokset {regs : List Hakemisto} {oikeus : Malli → QuerySet}
    {term : String} {x : Malli × Option Hakemisto.Hakutulos}
    (hx : x ∈ hakuTulokset regs oikeus term) :
    ∃ g, g ∈ ryhmittele (regs.insertionSort nimiJarjestys) ∧
      x ∈ ryhmanTulos oikeus term g := by
  unfold hakuTulokset at hx
  exact List.mem_flatMap.mp hx

/-- Structure of an emitted, non-erroring row: it is the assembly of the
non-empty pair list of its model group. -/
theorem hakuTulos_rakenne {regs : List Hakemisto} {oikeus : Malli → QuerySet}
    {term : String} {m : Malli} {r : Hakemisto.Hakutulos}
    (hx : (m, some r) ∈ hakuTulokset regs oikeus term) :
    ∃ g p ps, g ∈ ryhmittele (regs.insertionSort nimiJarjestys) ∧
      (∃ h hs, g = h :: hs ∧ h.malli = m) ∧
      (oikeus m).query_is_empty = false ∧
      ryhmanParit term (oikeus m).rivit g = p :: ps ∧
      some r = Hakemisto.Hakutulos.tietueiden_mukaan m (p :: ps) := by
  obtain ⟨g, hg, hxg⟩ := mem_hakuTulokset hx
  obtain ⟨h, hs, p, ps, hge, hq, hpar, hxeq⟩ := mem_ryhmanTulos hxg
  rw [Prod.mk.injEq] at hxeq
  obtain ⟨hm, hr⟩ := hxeq
  subst hm
  exact ⟨g, p, ps, hg, ⟨h, hs, hge, rfl⟩, hq, hpar, hr⟩

/-- A hook whose scopes are all provably empty silences the whole search. -/
theorem haku_tyhjalla_oikeudella {regs : List Hakemisto}
    {oikeus : Malli → QuerySet} {term : String}
    (h : ∀ m, (oikeus m).query_is_empty = true) :
    haku regs oikeus term = [] := by
  unfold haku hakuTulokset
  rw [List.flatMap_eq_nil_iff.mpr, List.map_nil]
  intro g _
  unfold ryhmanTulos
  cases g with
  | nil => rfl
  | cons h0 hs => exact if_pos (h h0.malli)

/-- The empty (falsy) term silences the whole search. -/
theorem haku_tyhjalla_sanalla (regs : List Hakemisto)
    (oikeus : Malli → QuerySet) : haku regs oikeus "" = [] := by
  unfold haku hakuTulokset
  rw [List.flatMap_eq_nil_iff.mpr, List.map_nil]
  intro g _
  unfold ryhmanTulos
  cases g with
  | nil => rfl
  | cons h0 hs =>
    dsimp only
    split
    · rfl
    · have hpar : ryhmanParit "" (oikeus h0.malli).rivit (h0 :: hs) = [] := by
        unfold ryhmanParit
        apply List.flatMap_eq_nil_iff.mpr
        intro h _
        simp [hakemistonParit]
      rw [hpar]

/-! ### Claims -/

/-- Claim C1: for every search call and every emitted TypeResult, the
relevance equals the maximum `relevanssi` over exactly the pairs surviving
within the capped window of the flattened pair list (equivalently, over the
indices with at least one pair there).  In the code the maximum ranges over
the whole pair list, but the relevance-descending visit order makes the two
maxima coincide on every reachable pair list. -/
theorem claim_C1 (regs : List Hakemisto) (oikeus : Malli → QuerySet)
    (term : String) (m : Malli) (r : Hakemisto.Hakutulos)
    (hx : (m, some r) ∈ hakuTulokset regs oikeus term) :
    ∃ g p ps q qs,
      g ∈ ryhmittele (regs.insertionSort nimiJarjestys) ∧
      ryhmanParit term (oikeus m).rivit g = p :: ps ∧
      some r = Hakemisto.Hakutulos.tietueiden_mukaan m (p :: ps) ∧
      pyTakeTo (suurin (fun x => x.1.enintaan) p ps) (p :: ps) = q :: qs ∧
      r.relevanssi = suurin (fun x => x.1.relevanssi) q qs := by
  obtain ⟨g, p, ps, hg, -, -, hpar, hr⟩ := hakuTulos_rakenne hx
  have hdesc := ryhmanParit_pairwise term (oikeus m).rivit g
  rw [hpar] at hdesc
  have hhead : ∀ y ∈ ps, y.1.relevanssi ≤ p.1.relevanssi :=
    (List.pairwise_cons.mp hdesc).1
  have hpmem : p ∈ ryhmanParit term (oikeus m).rivit g :=
    hpar ▸ List.mem_cons_self p ps
  obtain ⟨-, htee, -, -⟩ := mem_ryhmanParit hpmem
  have hcap : (1 : Int) ≤ suurin (fun x => x.1.enintaan) p ps :=
    le_trans (tee_haku_enintaan htee) (le_suurin_self _ p ps)
  have h0cap : (0 : Int) ≤ suurin (fun x => x.1.enintaan) p ps := by omega
  have htoNat : (suurin (fun x => x.1.enintaan) p ps).toNat
      = ((suurin (fun x => x.1.enintaan) p ps).toNat - 1) + 1 := by omega
  have hikkuna : pyTakeTo (suurin (fun x => x.1.enintaan) p ps) (p :: ps)
      = p :: ps.take ((suurin (fun x => x.1.enintaan) p ps).toNat - 1) := by
    unfold pyTakeTo
    rw [if_pos h0cap]
    conv_lhs => rw [htoNat]
    rw [List.take_succ_cons]
  have hrel : r.relevanssi = suurin (fun x => x.1.relevanssi) p ps := by
    simp only [Hakemisto.Hakutulos.tietueiden_mukaan, Option.some.injEq] at hr
    rw [hr]
  have hotto : ∀ y ∈ ps.take ((suurin (fun x => x.1.enintaan) p ps).toNat - 1),
      y.1.relevanssi ≤ p.1.relevanssi :=
    fun y hy => hhead y ((List.take_sublist _ _).subset hy)
  refine ⟨g, p, ps, p, ps.take ((suurin (fun x => x.1.enintaan) p ps).toNat - 1),
    hg, hpar, hr, hikkuna, ?_⟩
  calc r.relevanssi = suurin (fun x => x.1.relevanssi) p ps := hrel
    _ = p.1.relevanssi := suurin_eq_self _ hhead
    _ = suurin (fun x => x.1.relevanssi) p
          (ps.take ((suurin (fun x => x.1.enintaan) p ps).toNat - 1)) :=
        (suurin_eq_self _ hotto).symm

/-- Witness for C1 at the capping scenario: the registry
`[cXHakemisto, cYHakemisto]` with rows `r1 r2 r3` emits one row whose
relevance (9) is the capped-window maximum. -/
theorem claim_C1_witness :
    (esimArtikkeli, some c15Odotus)
        ∈ hakuTulokset [cXHakemisto, cYHakemisto] c15Oikeus "z" ∧
    ∃ g p ps q qs,
      g ∈ ryhmittele ([cXHakemisto, cYHakemisto].insertionSort nimiJarjestys) ∧
      ryhmanParit "z" (c15Oikeus esimArtikkeli).rivit g = p :: ps ∧
      some c15Odotus = Hakemisto.Hakutulos.tietueiden_mukaan esimArtikkeli (p :: ps) ∧
      pyTakeTo (suurin (fun x => x.1.enintaan) p ps) (p :: ps) = q :: qs ∧
      c15Odotus.relevanssi = suurin (fun x => x.1.relevanssi) q qs :=
  ⟨by decide,
   claim_C1 [cXHakemisto, cYHakemisto] c15Oikeus "z" esimArtikkeli c15Odotus
     (by decide)⟩

/-- Claim C3, amended: registration fails at registration time when the
field selector is missing (`TypeError`, the spec's RegistrationError) or when
a string precondition does not compile (`re.error`, the spec's
PreconditionCompileError); but `enintaan < 1` is not validated — any such
registration succeeds (`rekisteroi` never inspects the cap), and an index
registered with cap 0 never contributes a pair to any search (its queryset
slice `[:0]` is empty).  A negative cap is also accepted at registration; its
later fate is the storage collaborator's (it rejects negative slice bounds at
query time) and is outside this theorem.  The two detected failures occur at
registration, never during search: the search pipeline (`haku` and everything
under it) is defined without reference to `rekisteroi`/`reCompile`. -/
theorem claim_C3 :
    (∀ (reg : List Hakemisto) (malli : Malli)
        (hakuehto : Option (String ⊕ Pattern)) (mu : String → String)
        (n rel : Int) (kys : List Tietue → List Tietue),
        rekisteroi reg malli none hakuehto mu n rel kys
          = .error .typeErrorPuuttuvaKentta)
    ∧ (∀ (reg : List Hakemisto) (malli : Malli) (k : Tietue → String → Bool)
        (src e : String) (mu : String → String) (n rel : Int)
        (kys : List Tietue → List Tietue),
        reCompile src = .error e →
        rekisteroi reg malli (some k) (some (.inl src)) mu n rel kys
          = .error (.reErrorHakuehto e))
    ∧ (∀ (reg : List Hakemisto) (malli : Malli) (k : Tietue → String → Bool)
        (mu : String → String) (n rel : Int) (kys : List Tietue → List Tietue),
        (rekisteroi reg malli (some k) none mu n rel kys).isOk = true)
    ∧ (∀ (term : String) (rivit : List Tietue) (g : List Hakemisto)
        (h : Hakemisto) (t : Tietue), h.enintaan = 0 →
        (h, t) ∉ ryhmanParit term rivit g) := by
  refine ⟨fun reg malli hakuehto mu n rel kys => rfl, ?_,
    fun reg malli k mu n rel kys => rfl, ?_⟩
  · intro reg malli k src e mu n rel kys hce
    simp [rekisteroi, kaannaHakuehto, hce]
  · intro term rivit g h t hle hmem
    obtain ⟨-, htee, -, -⟩ := mem_ryhmanParit hmem
    have h1 : (1 : Int) ≤ h.enintaan := tee_haku_enintaan htee
    omega

/-- Counterexample to C3 as stated: a registration with `enintaan = 0 < 1`
succeeds instead of failing. -/
theorem claim_C3_counterexample :
    (0 : Int) < 1 ∧
    (rekisteroi [] esimSivu (some kenttaKaikki) none id 0 0 id).isOk = true :=
  ⟨by decide, rfl⟩

/-- Witness for the amended C3: a missing field selector and the bad source
`*` fail at registration, `enintaan = 0` registers fine, and a zero-cap index
contributes nothing. -/
theorem claim_C3_witness :
    rekisteroi [] esimSivu none none id 3 0 id
        = .error .typeErrorPuuttuvaKentta
    ∧ rekisteroi [] esimSivu (some kenttaKaikki) (some (.inl "*")) id 3 0 id
        = .error (.reErrorHakuehto "nothing to repeat")
    ∧ (rekisteroi [] esimArtikkeli (some kenttaKaikki) none id 0 0 id).isOk = true
    ∧ (nollaHakemisto, tietueA) ∉ ryhmanParit "x" [tietueA] [nollaHakemisto] :=
  ⟨claim_C3.1 [] esimSivu none id 3 0 id,
   claim_C3.2.1 [] esimSivu kenttaKaikki "*" "nothing to repeat" id 3 0 id rfl,
   claim_C3.2.2.1 [] esimArtikkeli kenttaKaikki id 0 0 id,
   claim_C3.2.2.2 "x" [tietueA] [nollaHakemisto] nollaHakemisto tietueA
     (by decide)⟩

/-- Claim C4: for every search call, the emitted rows follow the ascending
alphabetical (code-point lexicographic) order of the owning model's class
name, for any registry, hook and term — in particular regardless of any
relevance weights. -/
theorem claim_C4 (regs : List Hakemisto) (oikeus : Malli → QuerySet)
    (term : String) :
    (hakuTulokset regs oikeus term).Pairwise
      (fun x y => merkkijonoLe x.1.name.data y.1.name.data = true) := by
  unfold hakuTulokset
  rw [show (ryhmittele (regs.insertionSort nimiJarjestys)).flatMap
        (ryhmanTulos oikeus term)
      = ((ryhmittele (regs.insertionSort nimiJarjestys)).map
          (ryhmanTulos oikeus term)).flatten from rfl]
  apply List.pairwise_flatten.mpr
  constructor
  · intro l hl
    obtain ⟨g, -, rfl⟩ := List.mem_map.mp hl
    rcases ryhmanTulos_nil_or_singleton oikeus term g with hnil | ⟨x, hone⟩
    · rw [hnil]; exact List.Pairwise.nil
    · rw [hone]
      exact List.Pairwise.cons (fun b hb => absurd hb (List.not_mem_nil b))
        List.Pairwise.nil
  · rw [List.pairwise_map]
    have hs : (regs.insertionSort nimiJarjestys).Pairwise nimiJarjestys :=
      List.sorted_insertionSort nimiJarjestys regs
    have hflat : (ryhmittele (regs.insertionSort nimiJarjestys)).flatten
        = regs.insertionSort nimiJarjestys := ryhmittele_flatten _
    have hgp := (List.pairwise_flatten.mp (by rw [hflat]; exact hs)).2
    refine hgp.imp ?_
    intro g1 g2 hab x hx y hy
    obtain ⟨h1, hs1, p1, ps1, hg1, -, -, hxeq⟩ := mem_ryhmanTulos hx
    obtain ⟨h2, hs2, p2, ps2, hg2, -, -, hyeq⟩ := mem_ryhmanTulos hy
    rw [hxeq, hyeq]
    exact hab h1 (hg1 ▸ List.mem_cons_self h1 hs1)
      h2 (hg2 ▸ List.mem_cons_self h2 hs2)

/-- Claim C6: an index whose precondition is set and does not anchored-match
the term contributes no pair for any term, rows and group; matching means the
pattern is anchored at the start of the term — the pattern `b` occurs in `ab`
as a substring yet does not match it — and in the concrete two-index scenario
the non-matching index is skipped while its sibling still produces the
TypeResult. -/
theorem claim_C6 :
    (∀ (term : String) (rivit : List Tietue) (g : List Hakemisto)
        (h : Hakemisto) (p : Pattern) (t : Tietue),
        h.hakuehto = some p → reMatch p term = false →
        (h, t) ∉ ryhmanParit term rivit g)
    ∧ reSearch (.char 'b') "ab" = true
    ∧ reMatch (.char 'b') "ab" = false
    ∧ hakuTulokset [c6EhtoHakemisto, c6SisarHakemisto] c6Oikeus "ab"
        = [(esimSivu, some c6Odotus)] := by
  refine ⟨?_, by decide, by decide, by decide⟩
  intro term rivit g h p t hehto hmat hmem
  obtain ⟨-, -, -, hcond⟩ := mem_ryhmanParit hmem
  have hp : p ∈ (h, t).1.hakuehto := by
    simp [Option.mem_def, hehto]
  have := hcond p hp
  rw [hmat] at this
  exact Bool.false_ne_true this

/-- Witness for C6: the precondition index of the concrete scenario
contributes no pair for the term `ab`. -/
theorem claim_C6_witness :
    (c6EhtoHakemisto, sivuTietue)
      ∉ ryhmanParit "ab" [sivuTietue] [c6EhtoHakemisto, c6SisarHakemisto] :=
  claim_C6.1 "ab" [sivuTietue] [c6EhtoHakemisto, c6SisarHakemisto]
    c6EhtoHakemisto (.char 'b') sivuTietue rfl (by decide)

/-- Claim C7: a record type whose authorized queryset is provably empty is
never emitted, and a hook that is provably empty for every type makes the
whole search yield the empty sequence for any term. -/
theorem claim_C7 :
    (∀ (regs : List Hakemisto) (oikeus : Malli → QuerySet) (term : String)
        (m : Malli), (oikeus m).query_is_empty = true →
        ∀ x ∈ hakuTulokset regs oikeus term, x.1 ≠ m)
    ∧ (∀ (regs : List Hakemisto) (oikeus : Malli → QuerySet) (term : String),
        (∀ m, (oikeus m).query_is_empty = true) →
        haku regs oikeus term = []) := by
  constructor
  · intro regs oikeus term m hm x hx hxm
    obtain ⟨g, -, hxg⟩ := mem_hakuTulokset hx
    obtain ⟨h, hs', p, ps, -, hq, -, hxeq⟩ := mem_ryhmanTulos hxg
    rw [hxeq] at hxm
    dsimp only at hxm
    rw [hxm, hm] at hq
    exact Bool.noConfusion hq
  · exact fun regs oikeus term h => haku_tyhjalla_oikeudella h

/-- Witness for C7: with a hook that returns a provably empty queryset for
every model, the concrete search yields nothing. -/
theorem claim_C7_witness :
    haku [c2Hakemisto] (fun _ => ⟨true, []⟩) "x" = [] :=
  claim_C7.2 [c2Hakemisto] (fun _ => ⟨true, []⟩) "x" (fun _ => rfl)

/-- Claim C5: for every search call and every emitted TypeResult, the length
of its records list is at most the cap, the maximum `enintaan` over the pairs
of the group's flattened list (each index occurring there contributed at
least one pair, so this is the maximum over the contributing indices), and
every record is the display form of the second component of some pair inside
the capped window. -/
theorem claim_C5 (regs : List Hakemisto) (oikeus : Malli → QuerySet)
    (term : String) (m : Malli) (r : Hakemisto.Hakutulos)
    (hx : (m, some r) ∈ hakuTulokset regs oikeus term) :
    ∃ g p ps,
      g ∈ ryhmittele (regs.insertionSort nimiJarjestys) ∧
      ryhmanParit term (oikeus m).rivit g = p :: ps ∧
      some r = Hakemisto.Hakutulos.tietueiden_mukaan m (p :: ps) ∧
      (r.tietueet.length : Int) ≤ suurin (fun x => x.1.enintaan) p ps ∧
      (∀ ht ∈ r.tietueet,
        ∃ x ∈ pyTakeTo (suurin (fun x => x.1.enintaan) p ps) (p :: ps),
          ht = Hakemisto.Hakutulos.HaettuTietue.tietueen_mukaan x.2) := by
  obtain ⟨g, p, ps, hg, -, -, hpar, hr⟩ := hakuTulos_rakenne hx
  have hpmem : p ∈ ryhmanParit term (oikeus m).rivit g :=
    hpar ▸ List.mem_cons_self p ps
  obtain ⟨-, htee, -, -⟩ := mem_ryhmanParit hpmem
  have hcap : (1 : Int) ≤ suurin (fun x => x.1.enintaan) p ps :=
    le_trans (tee_haku_enintaan htee) (le_suurin_self _ p ps)
  have h0cap : (0 : Int) ≤ suurin (fun x => x.1.enintaan) p ps := by omega
  have hikkuna : pyTakeTo (suurin (fun x => x.1.enintaan) p ps) (p :: ps)
      = (p :: ps).take (suurin (fun x => x.1.enintaan) p ps).toNat := by
    unfold pyTakeTo
    rw [if_pos h0cap]
  have hrt : r.tietueet
      = (((pyTakeTo (suurin (fun q => q.1.enintaan) p ps) (p :: ps)).map
          Prod.snd).dedup).map Hakemisto.Hakutulos.HaettuTietue.tietueen_mukaan := by
    simp only [Hakemisto.Hakutulos.tietueiden_mukaan, Option.some.injEq] at hr
    rw [hr]
  refine ⟨g, p, ps, hg, hpar, hr, ?_, ?_⟩
  · have hlen : r.tietueet.length ≤ (suurin (fun x => x.1.enintaan) p ps).toNat := by
      rw [hrt, List.length_map]
      calc ((pyTakeTo (suurin (fun q => q.1.enintaan) p ps) (p :: ps)).map
              Prod.snd).dedup.length
          ≤ ((pyTakeTo (suurin (fun q => q.1.enintaan) p ps) (p :: ps)).map
              Prod.snd).length := (List.dedup_sublist _).length_le
        _ = (pyTakeTo (suurin (fun q => q.1.enintaan) p ps) (p :: ps)).length := by
              rw [List.length_map]
        _ ≤ (suurin (fun x => x.1.enintaan) p ps).toNat := by
              rw [hikkuna]
              exact List.length_take_le _ _
    omega
  · intro ht hht
    rw [hrt] at hht
    obtain ⟨t, htd, rfl⟩ := List.mem_map.mp hht
    obtain ⟨x, hx', hxt⟩ := List.mem_map.mp (List.mem_dedup.mp htd)
    exact ⟨x, hx', by rw [hxt]⟩

/-- Witness for C5 at the capping scenario: the emitted row has two records,
within the cap `max 2 1 = 2`, and both come from the capped window. -/
theorem claim_C5_witness :
    (esimArtikkeli, some c15Odotus)
        ∈ hakuTulokset [cXHakemisto, cYHakemisto] c15Oikeus "z" ∧
    ∃ g p ps,
      g ∈ ryhmittele ([cXHakemisto, cYHakemisto].insertionSort nimiJarjestys) ∧
      ryhmanParit "z" (c15Oikeus esimArtikkeli).rivit g = p :: ps ∧
      some c15Odotus = Hakemisto.Hakutulos.tietueiden_mukaan esimArtikkeli (p :: ps) ∧
      (c15Odotus.tietueet.length : Int) ≤ suurin (fun x => x.1.enintaan) p ps ∧
      (∀ ht ∈ c15Odotus.tietueet,
        ∃ x ∈ pyTakeTo (suurin (fun x => x.1.enintaan) p ps) (p :: ps),
          ht = Hakemisto.Hakutulos.HaettuTietue.tietueen_mukaan x.2) :=
  ⟨by decide,
   claim_C5 [cXHakemisto, cYHakemisto] c15Oikeus "z" esimArtikkeli c15Odotus
     (by decide)⟩

/-- Claim C8: the empty term yields zero rows for any registry and hook; an
emitted row's model always has a registered index, so a model with none is
never emitted; and the default hook for a plain (non-superuser) caller
authorizes nothing, so the search yields the empty sequence — all of these
produce the empty output, not an error value. -/
theorem claim_C8 :
    (∀ (regs : List Hakemisto) (oikeus : Malli → QuerySet),
        haku regs oikeus "" = [])
    ∧ (∀ (regs : List Hakemisto) (oikeus : Malli → QuerySet) (term : String)
        (x : Malli × Option Hakemisto.Hakutulos),
        x ∈ hakuTulokset regs oikeus term → ∃ h, h ∈ regs ∧ h.malli = x.1)
    ∧ (∀ (regs : List Hakemisto) (term : String) (taulut : Malli → List Tietue),
        haku regs (fun m => Hakemisto.hakuoikeus_tietueisiin false (taulut m))
          term = []) := by
  refine ⟨fun regs oikeus => haku_tyhjalla_sanalla regs oikeus, ?_, ?_⟩
  · intro regs oikeus term x hx
    obtain ⟨g, hg, hxg⟩ := mem_hakuTulokset hx
    obtain ⟨h, hs', p, ps, hge, -, -, hxeq⟩ := mem_ryhmanTulos hxg
    refine ⟨h, ?_, by rw [hxeq]⟩
    have hmem : h ∈ g := hge ▸ List.mem_cons_self h hs'
    exact ((List.perm_insertionSort nimiJarjestys regs).mem_iff).mp
      (mem_of_mem_ryhmittele hg hmem)
  · intro regs term taulut
    exact haku_tyhjalla_oikeudella (fun m => rfl)

/-- Witness for C8: empty term on a concrete registry, a concrete emitted
row's model has its index in the registry, and a concrete non-superuser
search is empty. -/
theorem claim_C8_witness :
    haku [c2Hakemisto] c2Oikeus "" = []
    ∧ (∃ h, h ∈ [c6EhtoHakemisto, c6SisarHakemisto]
        ∧ h.malli = (esimSivu, some c6Odotus).1)
    ∧ haku [c2Hakemisto]
        (fun m => Hakemisto.hakuoikeus_tietueisiin false [tietueA]) "zz" = [] :=
  ⟨claim_C8.1 [c2Hakemisto] c2Oikeus,
   claim_C8.2.1 [c6EhtoHakemisto, c6SisarHakemisto] c6Oikeus "ab"
     (esimSivu, some c6Odotus) (by decide),
   claim_C8.2.2 [c2Hakemisto] "zz" (fun _ => [tietueA])⟩

/-- Claim C9: the registration entry point is dual-mode — called with a
model it registers exactly one descriptor (string precondition compiled) at
the end of the registry and hands the model back; called without one it
returns a deferred registrar that, applied later to a registry and a model,
does the same and hands that model back.  Earlier registry entries are
untouched (`reg ++ [descriptor]`). -/
theorem claim_C9 (reg : List Hakemisto) (m : Malli)
    (k : Tietue → String → Bool) (src : String) (p : Pattern)
    (mu : String → String) (n rel : Int) (kys : List Tietue → List Tietue)
    (hc : reCompile src = .ok p) :
    Hakemisto.new reg (some m) (some k) (some (.inl src)) mu n rel kys
      = .ok (.malliJaRekisteri m (reg ++ [⟨m, k, some p, mu, n, rel, kys⟩]))
    ∧ ∃ f, Hakemisto.new reg none (some k) (some (.inl src)) mu n rel kys
          = .ok (.aseta f)
        ∧ ∀ (reg' : List Hakemisto) (m' : Malli),
            f reg' m' = .ok (m', reg' ++ [⟨m', k, some p, mu, n, rel, kys⟩]) := by
  have hre : ∀ (r : List Hakemisto) (mm : Malli),
      rekisteroi r mm (some k) (some (.inl src)) mu n rel kys
        = .ok (r ++ [⟨mm, k, some p, mu, n, rel, kys⟩]) := by
    intro r mm
    simp [rekisteroi, kaannaHakuehto, hc]
  constructor
  · simp [Hakemisto.new, hre]
  · refine ⟨_, rfl, ?_⟩
    intro reg' m'
    simp [hre]

/-- Witness for C9 with the compilable source `a`. -/
theorem claim_C9_witness :
    Hakemisto.new [] (some esimSivu) (some kenttaKaikki) (some (.inl "a"))
        id 3 0 id
      = .ok (.malliJaRekisteri esimSivu
          ([] ++ [⟨esimSivu, kenttaKaikki, some (.cat (.char 'a') .eps),
            id, 3, 0, id⟩]))
    ∧ ∃ f, Hakemisto.new [] none (some kenttaKaikki) (some (.inl "a"))
          id 3 0 id = .ok (.aseta f)
        ∧ ∀ (reg' : List Hakemisto) (m' : Malli),
            f reg' m' = .ok (m', reg' ++ [⟨m', kenttaKaikki,
              some (.cat (.char 'a') .eps), id, 3, 0, id⟩]) :=
  claim_C9 [] esimSivu kenttaKaikki "a" (.cat (.char 'a') .eps) id 3 0 id rfl

/-- Claim C10: the TypeResult assembly is only ever reached with a non-empty
pair list — every element the search emits is `some` row, never the `none`
that models the `ValueError` of `max()` on an empty sequence — and on any
non-empty pair list the assembly succeeds. -/
theorem claim_C10 :
    (∀ (regs : List Hakemisto) (oikeus : Malli → QuerySet) (term : String)
        (x : Option Hakemisto.Hakutulos),
        x ∈ haku regs oikeus term → x.isSome = true)
    ∧ (∀ (m : Malli) (p : Hakemisto × Tietue) (ps : List (Hakemisto × Tietue)),
        (Hakemisto.Hakutulos.tietueiden_mukaan m (p :: ps)).isSome = true) := by
  constructor
  · intro regs oikeus term x hx
    unfold haku at hx
    obtain ⟨y, hy, rfl⟩ := List.mem_map.mp hx
    obtain ⟨g, -, hyg⟩ := mem_hakuTulokset hy
    obtain ⟨h, hs', p, ps, -, -, -, hyeq⟩ := mem_ryhmanTulos hyg
    rw [hyeq]
    rfl
  · intro m p ps
    rfl

/-- Witness for C10: the row emitted by the concrete precondition scenario is
a `some`. -/
theorem claim_C10_witness :
    some c6Odotus ∈ haku [c6EhtoHakemisto, c6SisarHakemisto] c6Oikeus "ab" ∧
    (some c6Odotus).isSome = true :=
  ⟨by decide,
   claim_C10.1 [c6EhtoHakemisto, c6SisarHakemisto] c6Oikeus "ab"
     (some c6Odotus) (by decide)⟩
